import Mathlib

/-
Shallow embedding of the funnel-analysis pipeline of this repository:
the data-cleaning, metric, ranking, insight and loading logic of
src/funnel_analyzer.py and src/generate_offline_report.py.

Integer counts are modelled as ℕ, ratio values as ℚ (standing for the
Python float computation; no claim below depends on sub-ulp float
effects).  Pandas columnwise division, whose zero-denominator results
are the non-finite floats NaN or ±inf, is modelled with Option ℚ where
none stands for a non-finite result.
-/

namespace FunnelSpec

/-- Record models one input row.  Field roles follow the source columns:
exposure = 页面UV(SUM), click = 点击UV(SUM), submit = 点击用户提交单(SUM),
order = 点击用户预订单(SUM), event = 点击事件名称, platform = 平台,
date = 日期 (encoded as a natural number). -/
structure Record where
  exposure : ℕ
  click : ℕ
  submit : ℕ
  order : ℕ
  event : String
  platform : String
  date : ℕ
  deriving DecidableEq

/-- Sum of the exposure column of a data frame or group
(`group_df['页面UV(SUM)'].sum()`). -/
def exposureSum (g : List Record) : ℕ := (g.map Record.exposure).sum

/-- Sum of the click column (`group_df['点击UV(SUM)'].sum()`). -/
def clickSum (g : List Record) : ℕ := (g.map Record.click).sum

/-- Sum of the submit column (`group_df['点击用户提交单(SUM)'].sum()`). -/
def submitSum (g : List Record) : ℕ := (g.map Record.submit).sum

/-- Sum of the order column (`group_df['点击用户预订单(SUM)'].sum()`). -/
def orderSum (g : List Record) : ℕ := (g.map Record.order).sum

/-- Python's `round` uses round-half-to-even; this is its integer core on ℚ. -/
def roundHalfEven (q : ℚ) : ℤ :=
  if q - ⌊q⌋ < 1/2 then ⌊q⌋
  else if 1/2 < q - ⌊q⌋ then ⌊q⌋ + 1
  else if ⌊q⌋ % 2 = 0 then ⌊q⌋ else ⌊q⌋ + 1

/-- Python's `round(x, 2)`, modelled on ℚ. -/
def round2 (q : ℚ) : ℚ := (roundHalfEven (q * 100) : ℚ) / 100

/-- FunnelAnalyzer.audit_and_clean, funnel_analyzer.py lines 73-81, and the
identical filters of generate_offline_report.py lines 35-38: drop rows with
click below the threshold, then drop rows with click greater than exposure.
Row order is preserved; rows are only removed, never modified. -/
def clean (df : List Record) (t : ℕ) : List Record :=
  (df.filter fun r => decide (t ≤ r.click)).filter fun r => decide (r.click ≤ r.exposure)

/-- Result record of FunnelAnalyzer.calculate_metrics. -/
structure Metrics where
  exposure : ℕ
  click : ℕ
  convert : ℕ
  order : ℕ
  ctr : ℚ
  click_cvr : ℚ
  order_cvr : ℚ
  deriving DecidableEq

/-- FunnelAnalyzer.calculate_metrics, funnel_analyzer.py lines 94-122:
sums the four columns over the group, guards every ratio against a zero
denominator, and rounds each ratio to 2 decimals. -/
def calculate_metrics (g : List Record) : Metrics :=
  let total_exposure := exposureSum g
  let total_click := clickSum g
  let total_convert := submitSum g
  let total_order := orderSum g
  let ctr : ℚ := if 0 < total_exposure then (total_click : ℚ) / total_exposure * 100 else 0
  let click_cvr : ℚ := if 0 < total_click then (total_convert : ℚ) / total_click * 100 else 0
  let order_cvr : ℚ := if 0 < total_click then (total_order : ℚ) / total_click * 100 else 0
  { exposure := total_exposure, click := total_click, convert := total_convert,
    order := total_order, ctr := round2 ctr, click_cvr := round2 click_cvr,
    order_cvr := round2 order_cvr }

/-- Overall ctr of generate_offline_report.py line 46. -/
def offline_ctr (g : List Record) : ℚ :=
  round2 (if 0 < exposureSum g then (clickSum g : ℚ) / exposureSum g * 100 else 0)

/-- Overall click_cvr of generate_offline_report.py line 47. -/
def offline_click_cvr (g : List Record) : ℚ :=
  round2 (if 0 < clickSum g then (submitSum g : ℚ) / clickSum g * 100 else 0)

/-- Overall order_cvr of generate_offline_report.py line 48. -/
def offline_order_cvr (g : List Record) : ℚ :=
  round2 (if 0 < clickSum g then (orderSum g : ℚ) / clickSum g * 100 else 0)

/-- Spec formula, stated from the spec's own words for refinement comparison:
order_cvr = order/click × 100 if click > 0 else 0, rounded to 2 decimals,
with the click count (not the submit count) as denominator. -/
def spec_order_cvr (order click : ℕ) : ℚ :=
  if 0 < click then round2 ((order : ℚ) / click * 100) else 0

/-- Pandas columnwise division: a zero denominator yields a non-finite
float (NaN for 0/0, ±inf otherwise), modelled as none. -/
def pandasDiv (a b : ℚ) : Option ℚ :=
  if b = 0 then none else some (a / b)

/-- One groupby partition by event name (`df.groupby('点击事件名称')`):
the rows whose event equals the key, in original order. -/
def eventGroup (df : List Record) (k : String) : List Record :=
  df.filter fun r => r.event == k

/-- One groupby partition by platform (`df.groupby('平台')`). -/
def platformGroup (df : List Record) (k : String) : List Record :=
  df.filter fun r => r.platform == k

/-- One groupby partition by date (`df.groupby('日期')`). -/
def dateGroup (df : List Record) (d : ℕ) : List Record :=
  df.filter fun r => r.date == d

/-- Per-event ctr column, funnel_analyzer.py lines 156-158 and
generate_offline_report.py line 59: unguarded division of the click sum by
the exposure sum, times 100, rounded to 2 decimals. -/
def eventCtr (g : List Record) : Option ℚ :=
  (pandasDiv (clickSum g) (exposureSum g)).map fun q => round2 (q * 100)

/-- Per-event click-conversion column, funnel_analyzer.py lines 159-161 and
generate_offline_report.py line 60: unguarded division by the click sum. -/
def eventClickCvr (g : List Record) : Option ℚ :=
  (pandasDiv (submitSum g) (clickSum g)).map fun q => round2 (q * 100)

/-- Per-event order-conversion column, funnel_analyzer.py lines 162-164 and
generate_offline_report.py line 61: unguarded division by the click sum. -/
def eventOrderCvr (g : List Record) : Option ℚ :=
  (pandasDiv (orderSum g) (clickSum g)).map fun q => round2 (q * 100)

/-- One row of the event_analysis table (event key, the four sums, and the
three ratio columns with numeric values). -/
structure EventRow where
  event : String
  exposure : ℕ
  click : ℕ
  convert : ℕ
  order : ℕ
  ctr : ℚ
  click_cvr : ℚ
  order_cvr : ℚ
  deriving DecidableEq

/-- Ascending stable insertion keyed by a rational sort key.  Numpy's
quicksort (the pandas sort_values default) runs straight insertion sort on
arrays below its small-array cutoff, which this models exactly. -/
def insertAsc {α : Type} (key : α → ℚ) (x : α) : List α → List α
  | [] => [x]
  | y :: ys => if key x ≤ key y then x :: y :: ys else y :: insertAsc key x ys

/-- Ascending insertion sort keyed by a rational sort key. -/
def sortAsc {α : Type} (key : α → ℚ) : List α → List α
  | [] => []
  | x :: xs => insertAsc key x (sortAsc key xs)

/-- Pandas `sort_values(by, ascending=False)` (default kind): pandas
nargsort argsorts ascending and then reverses the whole indexer, so the
descending order is the reverse of the ascending sort. -/
def sort_values_desc {α : Type} (key : α → ℚ) (l : List α) : List α :=
  (sortAsc key l).reverse

/-- The produced module ranking: event_analysis sorted descending by the
ctr column (funnel_analyzer.py line 167, generate_offline_report.py
line 62) truncated to the top n (`head(top_n)`). -/
def rank_modules (l : List EventRow) (top_n : ℕ) : List EventRow :=
  (sort_values_desc (fun r => r.ctr) l).take top_n

/-- FunnelAnalyzer.generate_top_list, funnel_analyzer.py lines 192-204:
takes the head of the (already sorted) event table and inserts a 排名
column holding `range(1, len+1)`, i.e. 1-based positions. -/
def generate_top_list (sorted_rows : List EventRow) (top_n : ℕ) : List (ℕ × EventRow) :=
  ((sorted_rows.take top_n).enum).map fun p => (p.1 + 1, p.2)

/-- The Top-50 table of generate_offline_report.py lines 551-574: the
event table carries its pre-sort reset_index labels (positions 0,1,...),
sort_values permutes the rows but keeps the labels, head(50) truncates,
and `for idx, row in top_modules.iterrows(): rank = idx + 1` displays
rank = label + 1 for each row. -/
def offline_top_table (rows : List EventRow) : List (ℕ × EventRow) :=
  ((sort_values_desc (fun p => p.2.ctr) rows.enum).take 50).map fun p => (p.1 + 1, p.2)

/-- Funnel stages named in the insight generation: 曝光到点击, 点击到转化,
转化到下单. -/
inductive Stage where
  | exposureToClick
  | clickToConvert
  | convertToOrder
  deriving DecidableEq

/-- FunnelAnalyzer.generate_insights, funnel_analyzer.py lines 261-276:
`max` over the three (stage, loss) pairs keyed on the loss.  Python's max
scans left to right and replaces the current pair only on a strictly
greater key, so the earliest-listed pair wins ties. -/
def max_loss_stage (ctr click_cvr order_cvr : ℚ) : Stage × ℚ :=
  let click_loss := 100 - ctr
  let convert_loss := 100 - click_cvr
  let order_loss := 100 - order_cvr
  let m1 : Stage × ℚ :=
    if convert_loss > click_loss then (Stage.clickToConvert, convert_loss)
    else (Stage.exposureToClick, click_loss)
  if order_loss > m1.2 then (Stage.convertToOrder, order_loss) else m1

/-- Loss-stage selection of generate_offline_report.py lines 576-605:
`max_loss = max(click_loss, convert_loss, order_loss)` followed by an
if/elif chain comparing for equality in the order click, convert, order. -/
def offline_max_loss_stage (ctr click_cvr order_cvr : ℚ) : Stage :=
  let click_loss := 100 - ctr
  let convert_loss := 100 - click_cvr
  let order_loss := 100 - order_cvr
  let max_loss := max click_loss (max convert_loss order_loss)
  if max_loss = click_loss then Stage.exposureToClick
  else if max_loss = convert_loss then Stage.clickToConvert
  else Stage.convertToOrder

/-- Python's `str.endswith`, on the underlying character list. -/
def endswith (s suf : String) : Bool := suf.data.isSuffixOf s.data

/-- The two supported tabular load paths. -/
inductive LoadKind where
  | excel
  | csv
  deriving DecidableEq

/-- Loading dispatch of generate_offline_report.py lines 26-32: suffix
checks select the reader; any other suffix raises
ValueError("不支持的文件格式"), which propagates to the caller. -/
def offline_load (p : String) : Except String LoadKind :=
  if endswith p ".xlsx" || endswith p ".xls" then Except.ok LoadKind.excel
  else if endswith p ".csv" then Except.ok LoadKind.csv
  else Except.error "不支持的文件格式"

/-- FunnelAnalyzer.load_data, funnel_analyzer.py lines 32-46: the same
suffix dispatch inside try/except.  The unsupported-suffix ValueError is
caught and turned into the return value False; a supported suffix returns
whatever the pandas read yields (read_ok abstracts whether the read
itself succeeds). -/
def load_data (p : String) (read_ok : Bool) : Bool :=
  if endswith p ".xlsx" || endswith p ".xls" then read_ok
  else if endswith p ".csv" then read_ok
  else false

/-- FunnelAnalyzer.run_analysis, funnel_analyzer.py lines 443-466: returns
False immediately when load_data fails, before any analysis step runs, so
no partial result is produced. -/
def run_analysis (p : String) (read_ok : Bool) : Bool := load_data p read_ok

/-- Sample row with all counts zero (survives cleaning at threshold 0). -/
def r0 : Record := ⟨0, 0, 0, 0, "A", "ios", 1⟩

/-- Sample row with click between 10 and its exposure. -/
def r1 : Record := ⟨100, 20, 5, 2, "B", "ios", 1⟩

/-- Sample event row with ctr 10, listed first in grouping order. -/
def rowA : EventRow := ⟨"A", 100, 10, 1, 1, 10, 10, 10⟩

/-- Sample event row with the same ctr 10, listed second. -/
def rowB : EventRow := ⟨"B", 200, 20, 2, 2, 10, 10, 10⟩

/-- Sample event row with ctr 50, distinct from rowA's ctr. -/
def rowC : EventRow := ⟨"C", 200, 100, 10, 5, 50, 10, 5⟩

/-- Membership in the cleaned dataset is membership in the original one
together with the two filter conditions. -/
lemma mem_clean {D : List Record} {t : ℕ} {r : Record} :
    r ∈ clean D t ↔ r ∈ D ∧ t ≤ r.click ∧ r.click ≤ r.exposure := by
  simp only [clean, List.mem_filter, decide_eq_true_eq, and_assoc]

/-- Round-half-to-even never exceeds the ceiling. -/
lemma roundHalfEven_le_ceil (q : ℚ) : roundHalfEven q ≤ ⌈q⌉ := by
  unfold roundHalfEven
  split_ifs with h1 h2 h3
  · exact Int.floor_le_ceil q
  · have hf : (⌊q⌋ : ℚ) < q := by push_neg at h1; linarith
    have : ⌊q⌋ < ⌈q⌉ := Int.lt_ceil.mpr hf
    omega
  · exact Int.floor_le_ceil q
  · have hf : (⌊q⌋ : ℚ) < q := by push_neg at h1; linarith
    have : ⌊q⌋ < ⌈q⌉ := Int.lt_ceil.mpr hf
    omega

/-- Rounding zero to two decimals gives zero. -/
lemma round2_zero : round2 0 = 0 := by
  norm_num [round2, roundHalfEven]

/-- Rounding to two decimals preserves the bound 100. -/
lemma round2_le_hundred {q : ℚ} (h : q ≤ 100) : round2 q ≤ 100 := by
  have h1 : roundHalfEven (q * 100) ≤ ⌈q * 100⌉ := roundHalfEven_le_ceil _
  have h2 : ⌈q * 100⌉ ≤ (10000 : ℤ) := Int.ceil_le.mpr (by push_cast; linarith)
  unfold round2
  rw [div_le_iff₀ (by norm_num : (0:ℚ) < 100)]
  have h3 : (roundHalfEven (q * 100) : ℚ) ≤ (10000 : ℚ) := by
    exact_mod_cast le_trans h1 h2
  linarith

/-- C1: for every dataset group, the order conversion rate is computed as
order/click × 100 with the click count (not the submit count) as
denominator when click > 0, else 0, rounded to 2 decimal places — both in
FunnelAnalyzer.calculate_metrics and in the offline report's overall
computation, matching the spec formula spec_order_cvr. -/
theorem c1_order_cvr_formula (g : List Record) :
    (calculate_metrics g).order_cvr = spec_order_cvr (orderSum g) (clickSum g) ∧
    offline_order_cvr g = spec_order_cvr (orderSum g) (clickSum g) := by
  by_cases h : 0 < clickSum g <;>
    simp [calculate_metrics, offline_order_cvr, spec_order_cvr, h, round2_zero]

/-- C2 (amended): compute_metrics (calculate_metrics) is zero-division
safe on every group — exposure sum 0 gives ctr 0, click sum 0 gives
click_cvr 0 and order_cvr 0.  The platform and date partitions of
funnel_analyzer.py apply calculate_metrics to a sub-list and are
instances of this statement; the event-name partition is not (see the
counterexample). -/
theorem c2_compute_metrics_zero_safe (g : List Record) :
    (exposureSum g = 0 → (calculate_metrics g).ctr = 0) ∧
    (clickSum g = 0 →
      (calculate_metrics g).click_cvr = 0 ∧ (calculate_metrics g).order_cvr = 0) := by
  constructor
  · intro h; simp [calculate_metrics, h, round2_zero]
  · intro h; simp [calculate_metrics, h, round2_zero]

/-- Witness for c2_compute_metrics_zero_safe at the concrete all-zero row. -/
theorem c2_compute_metrics_zero_safe_witness :
    (calculate_metrics [r0]).ctr = 0 ∧
      (calculate_metrics [r0]).click_cvr = 0 ∧ (calculate_metrics [r0]).order_cvr = 0 :=
  ⟨(c2_compute_metrics_zero_safe [r0]).1 (by decide),
   (c2_compute_metrics_zero_safe [r0]).2 (by decide)⟩

/-- C2 (counterexample): with threshold 0 the all-zero row survives
cleaning, its event partition "A" is produced by the grouped computation,
and the per-event ctr and click_cvr columns are the unguarded divisions,
which yield a non-finite value (none), not 0, refuting the claim for the
event-name partitions. -/
theorem c2_counterexample :
    "A" ∈ (clean [r0] 0).map Record.event ∧
    eventCtr (eventGroup (clean [r0] 0) "A") = none ∧
    eventClickCvr (eventGroup (clean [r0] 0) "A") = none ∧
    eventCtr (eventGroup (clean [r0] 0) "A") ≠ some 0 := by
  refine ⟨by decide, ?_, ?_, ?_⟩ <;>
    simp [eventCtr, eventClickCvr, eventGroup, clean, pandasDiv, r0, clickSum,
      exposureSum, submitSum]

/-- C3: the cleaned dataset contains no record with click below the
threshold and none with click exceeding exposure. -/
theorem c3_clean_bounds (D : List Record) (t : ℕ) (r : Record) (h : r ∈ clean D t) :
    t ≤ r.click ∧ r.click ≤ r.exposure :=
  (mem_clean.mp h).2

/-- Witness for c3_clean_bounds at a concrete dataset and threshold. -/
theorem c3_clean_bounds_witness : 10 ≤ r1.click ∧ r1.click ≤ r1.exposure :=
  c3_clean_bounds [r1] 10 r1 (by decide)

/-- C4: cleaning is idempotent — applying clean a second time with the
same threshold changes nothing. -/
theorem c4_clean_idempotent (D : List Record) (t : ℕ) :
    clean (clean D t) t = clean D t := by
  have h1 : (clean D t).filter (fun r => decide (t ≤ r.click)) = clean D t :=
    List.filter_eq_self.mpr fun r hr => by
      simpa using (mem_clean.mp hr).2.1
  have h2 : (clean D t).filter (fun r => decide (r.click ≤ r.exposure)) = clean D t :=
    List.filter_eq_self.mpr fun r hr => by
      simpa using (mem_clean.mp hr).2.2
  show ((clean D t).filter _).filter _ = clean D t
  rw [h1, h2]

/-- C9: any path whose suffix is not .xlsx, .xls or .csv makes the
offline loader fail with the unsupported-format error, and makes
FunnelAnalyzer.load_data return False so that run_analysis aborts with no
partial result, for any outcome of the underlying read. -/
theorem c9_unsupported_format (p : String) (read_ok : Bool)
    (h1 : endswith p ".xlsx" = false) (h2 : endswith p ".xls" = false)
    (h3 : endswith p ".csv" = false) :
    offline_load p = Except.error "不支持的文件格式" ∧
      load_data p read_ok = false ∧ run_analysis p read_ok = false := by
  unfold offline_load load_data run_analysis
  simp [load_data, h1, h2, h3]

/-- Membership in an ascending insertion. -/
lemma mem_insertAsc {α : Type} (key : α → ℚ) (x y : α) :
    ∀ l : List α, y ∈ insertAsc key x l ↔ y = x ∨ y ∈ l := by
  intro l
  induction l with
  | nil => simp [insertAsc]
  | cons z zs ih =>
    by_cases h : key x ≤ key z
    · simp [insertAsc, h]
    · simp only [insertAsc, if_neg h, List.mem_cons, ih]
      tauto

/-- Inserting into an ascending list keeps it ascending. -/
lemma pairwise_insertAsc {α : Type} (key : α → ℚ) (x : α) :
    ∀ {l : List α}, l.Pairwise (fun a b => key a ≤ key b) →
      (insertAsc key x l).Pairwise (fun a b => key a ≤ key b) := by
  intro l
  induction l with
  | nil => intro _; simp [insertAsc]
  | cons y ys ih =>
    intro h
    rw [List.pairwise_cons] at h
    obtain ⟨hy, hys⟩ := h
    by_cases hxy : key x ≤ key y
    · rw [show insertAsc key x (y :: ys) =
          if key x ≤ key y then x :: y :: ys else y :: insertAsc key x ys from rfl,
        if_pos hxy]
      refine List.pairwise_cons.mpr ⟨?_, List.pairwise_cons.mpr ⟨hy, hys⟩⟩
      intro z hz
      rcases List.mem_cons.mp hz with rfl | hz'
      · exact hxy
      · exact le_trans hxy (hy z hz')
    · rw [show insertAsc key x (y :: ys) =
          if key x ≤ key y then x :: y :: ys else y :: insertAsc key x ys from rfl,
        if_neg hxy]
      refine List.pairwise_cons.mpr ⟨?_, ih hys⟩
      intro z hz
      rcases (mem_insertAsc key x z ys).mp hz with rfl | hz'
      · exact (not_le.mp hxy).le
      · exact hy z hz'

/-- The ascending insertion sort is ascending. -/
lemma pairwise_sortAsc {α : Type} (key : α → ℚ) (l : List α) :
    (sortAsc key l).Pairwise (fun a b => key a ≤ key b) := by
  induction l with
  | nil => simp [sortAsc]
  | cons x xs ih =>
    rw [show sortAsc key (x :: xs) = insertAsc key x (sortAsc key xs) from rfl]
    exact pairwise_insertAsc key x ih

/-- Filtering one key class out of an ascending insertion: the inserted
element, when it belongs to the class, lands in front of every other
member of the class (an element is only passed over when its key is
strictly smaller). -/
lemma filter_insertAsc {α : Type} (key : α → ℚ) (c : ℚ) (x : α) :
    ∀ l : List α,
      (insertAsc key x l).filter (fun y => decide (key y = c)) =
        if key x = c then x :: l.filter (fun y => decide (key y = c))
        else l.filter (fun y => decide (key y = c)) := by
  intro l
  induction l with
  | nil =>
    by_cases hx : key x = c <;> simp [insertAsc, List.filter, hx]
  | cons y ys ih =>
    rw [show insertAsc key x (y :: ys) =
        if key x ≤ key y then x :: y :: ys else y :: insertAsc key x ys from rfl]
    by_cases hxy : key x ≤ key y
    · rw [if_pos hxy]
      by_cases hx : key x = c <;> simp [List.filter_cons, hx]
    · rw [if_neg hxy]
      have hyx : key y < key x := not_le.mp hxy
      by_cases hx : key x = c
      · have hy : ¬ key y = c := by
          intro h
          rw [hx, ← h] at hyx
          exact lt_irrefl _ hyx
        simp [List.filter_cons, hx, hy, ih]
      · by_cases hy : key y = c <;> simp [List.filter_cons, hx, hy, ih]

/-- Stability of the ascending insertion sort on one key class: filtering
a single key value out of the sorted list returns that class in its
original order. -/
lemma filter_sortAsc {α : Type} (key : α → ℚ) (c : ℚ) (l : List α) :
    (sortAsc key l).filter (fun y => decide (key y = c)) =
      l.filter (fun y => decide (key y = c)) := by
  induction l with
  | nil => simp [sortAsc]
  | cons x xs ih =>
    rw [show sortAsc key (x :: xs) = insertAsc key x (sortAsc key xs) from rfl,
      filter_insertAsc]
    by_cases hx : key x = c <;> simp [List.filter_cons, hx, ih]

/-- C5: every module ranking (descending ctr sort truncated to top n) is
in non-increasing ctr order: any earlier entry's ctr is at least any
later entry's. -/
theorem c5_ranking_sorted (l : List EventRow) (n : ℕ) :
    (rank_modules l n).Pairwise (fun a b => b.ctr ≤ a.ctr) := by
  have h1 : (sort_values_desc (fun r => r.ctr) l).Pairwise (fun a b => b.ctr ≤ a.ctr) := by
    unfold sort_values_desc
    exact List.pairwise_reverse.mpr (pairwise_sortAsc (fun r => r.ctr) l)
  exact h1.sublist (List.take_sublist n _)

/-- C6 (amended): the descending ctr sort puts groups of equal ctr in
REVERSED original grouping order, because pandas sort_values with
ascending=False reverses the ascending argsort: filtering any single ctr
value out of the sorted table yields the reverse of that class's original
order. -/
theorem c6_ties_reversed (l : List EventRow) (c : ℚ) :
    (sort_values_desc (fun r => r.ctr) l).filter (fun r => decide (r.ctr = c)) =
      (l.filter (fun r => decide (r.ctr = c))).reverse := by
  unfold sort_values_desc
  rw [List.filter_reverse, filter_sortAsc]

/-- C6 (counterexample): two event rows with equal ctr come out of the
ranking in the order B, A although their original grouping order was
A, B — the relative order of a ctr tie is not preserved. -/
theorem c6_counterexample :
    rowA.ctr = rowB.ctr ∧
    rank_modules [rowA, rowB] 50 = [rowB, rowA] ∧
    rank_modules [rowA, rowB] 50 ≠ [rowA, rowB] := by
  decide

/-- C7: at a two-event input whose descending ctr sort swaps the rows,
generate_offline_report's Top-50 table displays rank = pre-sort index + 1,
showing 2 for the first displayed row and 1 for the second, while
FunnelAnalyzer.generate_top_list assigns rank = 1-based displayed
position as the claim states. -/
theorem c7_offline_rank_uses_presort_index :
    offline_top_table [rowA, rowC] = [(2, rowC), (1, rowA)] ∧
    generate_top_list (sort_values_desc (fun r => r.ctr) [rowA, rowC]) 50 =
      [(1, rowC), (2, rowA)] := by
  decide

/-- Witness for c9_unsupported_format at the concrete path "data.json". -/
theorem c9_unsupported_format_witness :
    offline_load "data.json" = Except.error "不支持的文件格式" ∧
      load_data "data.json" true = false ∧ run_analysis "data.json" true = false :=
  c9_unsupported_format "data.json" true (by decide) (by decide) (by decide)

/-- Python's max keeps the first pair when the later losses do not
strictly exceed the click loss. -/
lemma mls_click {c v o : ℚ} (hv : 100 - v ≤ 100 - c) (ho : 100 - o ≤ 100 - c) :
    max_loss_stage c v o = (Stage.exposureToClick, 100 - c) := by
  simp only [max_loss_stage]
  rw [if_neg (not_lt.mpr hv)]
  dsimp only
  rw [if_neg (not_lt.mpr ho)]

/-- Python's max selects the convert pair when its loss strictly exceeds
the click loss and the order loss does not strictly exceed it. -/
lemma mls_convert {c v o : ℚ} (hc : 100 - c < 100 - v) (ho : 100 - o ≤ 100 - v) :
    max_loss_stage c v o = (Stage.clickToConvert, 100 - v) := by
  simp only [max_loss_stage]
  rw [if_pos hc]
  dsimp only
  rw [if_neg (not_lt.mpr ho)]

/-- Python's max selects the order pair when its loss strictly exceeds
both other losses. -/
lemma mls_order {c v o : ℚ} (hc : 100 - c < 100 - o) (hv : 100 - v < 100 - o) :
    max_loss_stage c v o = (Stage.convertToOrder, 100 - o) := by
  simp only [max_loss_stage]
  by_cases h1 : 100 - v > 100 - c
  · rw [if_pos h1]
    dsimp only
    rw [if_pos hv]
  · rw [if_neg h1]
    dsimp only
    rw [if_pos hc]

/-- The offline if/elif chain picks the click stage in the same region. -/
lemma omls_click {c v o : ℚ} (hv : 100 - v ≤ 100 - c) (ho : 100 - o ≤ 100 - c) :
    offline_max_loss_stage c v o = Stage.exposureToClick := by
  simp only [offline_max_loss_stage]
  rw [if_pos (max_eq_left (max_le hv ho))]

/-- The offline if/elif chain picks the convert stage in the same region. -/
lemma omls_convert {c v o : ℚ} (hc : 100 - c < 100 - v) (ho : 100 - o ≤ 100 - v) :
    offline_max_loss_stage c v o = Stage.clickToConvert := by
  simp only [offline_max_loss_stage]
  have hmax : max (100 - c) (max (100 - v) (100 - o)) = 100 - v := by
    rw [max_eq_left ho, max_eq_right hc.le]
  rw [hmax, if_neg (Ne.symm (ne_of_lt hc)), if_pos rfl]

/-- The offline if/elif chain picks the order stage in the same region. -/
lemma omls_order {c v o : ℚ} (hc : 100 - c < 100 - o) (hv : 100 - v < 100 - o) :
    offline_max_loss_stage c v o = Stage.convertToOrder := by
  simp only [offline_max_loss_stage]
  have hmax : max (100 - c) (max (100 - v) (100 - o)) = 100 - o := by
    rw [max_eq_right hv.le, max_eq_right hc.le]
  rw [hmax, if_neg (Ne.symm (ne_of_lt hc)), if_neg (Ne.symm (ne_of_lt hv))]

/-- C8: the dominant loss stage is the stage of maximum loss among
click_loss = 100 − ctr, convert_loss = 100 − click_cvr and
order_loss = 100 − order_cvr, ties broken by the fixed priority click,
convert, order (the earliest-listed candidate wins ties); the selected
loss is the maximum of the three; the offline report's if/elif chain
selects the same stage; and the scenario ctr=80, click_cvr=50,
order_cvr=10 yields the conversion-to-order stage with loss 90. -/
theorem c8_dominant_loss_stage (ctr click_cvr order_cvr : ℚ) :
    ((max_loss_stage ctr click_cvr order_cvr).1 = Stage.exposureToClick ↔
      100 - click_cvr ≤ 100 - ctr ∧ 100 - order_cvr ≤ 100 - ctr) ∧
    ((max_loss_stage ctr click_cvr order_cvr).1 = Stage.clickToConvert ↔
      100 - ctr < 100 - click_cvr ∧ 100 - order_cvr ≤ 100 - click_cvr) ∧
    ((max_loss_stage ctr click_cvr order_cvr).1 = Stage.convertToOrder ↔
      100 - ctr < 100 - order_cvr ∧ 100 - click_cvr < 100 - order_cvr) ∧
    (max_loss_stage ctr click_cvr order_cvr).2 =
      max (100 - ctr) (max (100 - click_cvr) (100 - order_cvr)) ∧
    offline_max_loss_stage ctr click_cvr order_cvr =
      (max_loss_stage ctr click_cvr order_cvr).1 ∧
    max_loss_stage 80 50 10 = (Stage.convertToOrder, 90) := by
  have scenario : max_loss_stage 80 50 10 = (Stage.convertToOrder, 90) := by
    rw [mls_order (by norm_num) (by norm_num)]
    norm_num
  by_cases horder : 100 - ctr < 100 - order_cvr ∧ 100 - click_cvr < 100 - order_cvr
  · obtain ⟨hc, hv⟩ := horder
    have hm := mls_order hc hv
    have hoff := omls_order hc hv
    rw [hm, hoff]
    refine ⟨?_, ?_, ?_, ?_, rfl, scenario⟩
    · constructor
      · intro h; exact absurd h (by simp)
      · intro h; exact absurd h.2 (not_le.mpr hc)
    · constructor
      · intro h; exact absurd h (by simp)
      · intro h; exact absurd h.2 (not_le.mpr hv)
    · simp [hc, hv]
    · dsimp only
      rw [max_eq_right hv.le, max_eq_right hc.le]
  · by_cases hconv : 100 - ctr < 100 - click_cvr
    · have ho2 : 100 - order_cvr ≤ 100 - click_cvr := by
        rcases not_and_or.mp horder with h | h
        · have := not_lt.mp h; linarith
        · exact not_lt.mp h
      have hm := mls_convert hconv ho2
      have hoff := omls_convert hconv ho2
      rw [hm, hoff]
      refine ⟨?_, ?_, ?_, ?_, rfl, scenario⟩
      · constructor
        · intro h; exact absurd h (by simp)
        · intro h; exact absurd h.1 (not_le.mpr hconv)
      · simp [hconv, ho2]
      · constructor
        · intro h; exact absurd h (by simp)
        · intro h; exact absurd h.2 (not_lt.mpr ho2)
      · dsimp only
        rw [max_eq_left ho2, max_eq_right hconv.le]
    · have hv : 100 - click_cvr ≤ 100 - ctr := not_lt.mp hconv
      have ho : 100 - order_cvr ≤ 100 - ctr := by
        rcases not_and_or.mp horder with h | h
        · exact not_lt.mp h
        · exact le_trans (not_lt.mp h) hv
      have hm := mls_click hv ho
      have hoff := omls_click hv ho
      rw [hm, hoff]
      refine ⟨?_, ?_, ?_, ?_, rfl, scenario⟩
      · simp [hv, ho]
      · constructor
        · intro h; exact absurd h (by simp)
        · intro h; exact absurd h.1 (not_lt.mpr hv)
      · constructor
        · intro h; exact absurd h (by simp)
        · intro h; exact absurd h.1 (not_lt.mpr ho)
      · dsimp only
        rw [max_eq_left (max_le hv ho)]

/-- C10: with a threshold of at least 1, every cleaned row has click ≥ 1
and exposure ≥ click, so every per-event group has strictly positive
click and exposure sums, the unguarded grouped divisions all have nonzero
denominators (no non-finite value arises), and every per-event ctr is a
value of at most 100. -/
theorem c10_threshold_one_safety (D : List Record) (t : ℕ) (ht : 1 ≤ t) :
    (∀ r ∈ clean D t, 1 ≤ r.click ∧ r.click ≤ r.exposure) ∧
    (∀ k ∈ (clean D t).map Record.event,
      0 < clickSum (eventGroup (clean D t) k) ∧
      0 < exposureSum (eventGroup (clean D t) k) ∧
      (eventClickCvr (eventGroup (clean D t) k)).isSome = true ∧
      (eventOrderCvr (eventGroup (clean D t) k)).isSome = true ∧
      ∃ c, eventCtr (eventGroup (clean D t) k) = some c ∧ c ≤ 100) := by
  constructor
  · intro r hr
    obtain ⟨-, h1, h2⟩ := mem_clean.mp hr
    exact ⟨le_trans ht h1, h2⟩
  · intro k hk
    obtain ⟨r, hr, hrk⟩ := List.mem_map.mp hk
    have hrg : r ∈ eventGroup (clean D t) k :=
      List.mem_filter.mpr ⟨hr, by simp [hrk]⟩
    have hclick : 1 ≤ r.click := le_trans ht (mem_clean.mp hr).2.1
    have hcs : 0 < clickSum (eventGroup (clean D t) k) := by
      have hmem : r.click ∈ (eventGroup (clean D t) k).map Record.click :=
        List.mem_map_of_mem Record.click hrg
      have := List.single_le_sum (fun (x : ℕ) _ => Nat.zero_le x) _ hmem
      unfold clickSum
      omega
    have hle : clickSum (eventGroup (clean D t) k) ≤ exposureSum (eventGroup (clean D t) k) := by
      unfold clickSum exposureSum
      refine List.sum_le_sum ?_
      intro x hx
      have hxc : x ∈ clean D t := (List.mem_filter.mp hx).1
      exact (mem_clean.mp hxc).2.2
    have hes : 0 < exposureSum (eventGroup (clean D t) k) := lt_of_lt_of_le hcs hle
    have hcs' : ((clickSum (eventGroup (clean D t) k) : ℚ)) ≠ 0 :=
      Nat.cast_ne_zero.mpr hcs.ne'
    have hes' : ((exposureSum (eventGroup (clean D t) k) : ℚ)) ≠ 0 :=
      Nat.cast_ne_zero.mpr hes.ne'
    refine ⟨hcs, hes, ?_, ?_, ?_⟩
    · simp [eventClickCvr, pandasDiv, hcs']
    · simp [eventOrderCvr, pandasDiv, hcs']
    · refine ⟨round2 ((clickSum (eventGroup (clean D t) k) : ℚ) /
        (exposureSum (eventGroup (clean D t) k) : ℚ) * 100), ?_, ?_⟩
      · simp [eventCtr, pandasDiv, hes']
      · apply round2_le_hundred
        have h0 : (0:ℚ) < (exposureSum (eventGroup (clean D t) k) : ℚ) := by
          exact_mod_cast hes
        have hle' : ((clickSum (eventGroup (clean D t) k) : ℚ)) ≤
            (exposureSum (eventGroup (clean D t) k) : ℚ) := by
          exact_mod_cast hle
        rw [div_mul_eq_mul_div, div_le_iff₀ h0]
        linarith

/-- Witness for c10_threshold_one_safety at a concrete dataset,
threshold 10 and event key "B". -/
theorem c10_threshold_one_safety_witness :
    (1 ≤ r1.click ∧ r1.click ≤ r1.exposure) ∧
      0 < clickSum (eventGroup (clean [r1] 10) "B") :=
  ⟨(c10_threshold_one_safety [r1] 10 (by decide)).1 r1 (by decide),
   ((c10_threshold_one_safety [r1] 10 (by decide)).2 "B" (by decide)).1⟩

end FunnelSpec
